import Mathlib

/-!
Shallow embedding of the `custommetrics` Traefik plugin (the current variant
of the repository: store keyed by label-derived series keys, observing both
request and response headers).

Modelling conventions:
* Go `http.Header.Get` is modelled as a total function `String → String`
  returning `""` for absent headers, exactly as `Get` does.
* Go maps (`map[string]string`, `map[string]*Metric`) are modelled as
  insertion-ordered association lists with overwrite-on-assign (`mapSet`) and
  first-match lookup (`mapGet`); this is observationally equivalent to a Go
  map for assignment and lookup.  Go map *iteration* order is unspecified and
  randomized at runtime, so every place the source ranges over a map
  (`createMetricKey`, the label loop and the store loop of
  `renderPrometheusFormat`) takes the iteration sequence as an explicit
  argument; a run of the real program corresponds to some permutation of the
  map's entries at that argument.
* `float64` values are modelled as `ℚ`, treating the arithmetic the program
  performs (`++`, assignment of a parsed value) as exact.
* The construction-time I/O (`net.Listen`, background server) is outside the
  embedding; `New` is modelled up to and including its configuration
  validation and the construction of the plugin value.
-/

set_option autoImplicit false

namespace Custommetrics

/-- Go: `MetricTypeCounter = "counter"`. -/
def MetricTypeCounter : String := "counter"

/-- Go: `MetricTypeHistogram = "histogram"`. -/
def MetricTypeHistogram : String := "histogram"

/-- Go: `MetricTypeGauge = "gauge"`. -/
def MetricTypeGauge : String := "gauge"

/-- Go struct `Config` (the plugin configuration). -/
structure Config where
  MetricHeaders : List String
  MetricName : String
  MetricType : String
  MetricsPort : Int
deriving DecidableEq

/-- A request's or response's header collection, as seen through
`http.Header.Get`: absent headers read as `""`. -/
abbrev HeaderMap := String → String

/-- A Go `map[string]string`, as an insertion-ordered association list. -/
abbrev LabelMap := List (String × String)

/-- Go struct `Metric` (field `Type` is `Type'` here since `Type` is reserved
in Lean). -/
structure Metric where
  Name : String
  Type' : String
  Value : ℚ
  Labels : LabelMap
deriving DecidableEq

/-- The `metrics` map of Go struct `MetricsStore`, as an association list. -/
abbrev Store := List (String × Metric)

/-- Go map lookup `m[k]` (returns `none` when the key is absent). -/
def mapGet {β : Type} : List (String × β) → String → Option β
  | [], _ => none
  | (k, v) :: rest, key => if key = k then some v else mapGet rest key

/-- Go map assignment `m[k] = v` (overwrites an existing binding, otherwise
appends a fresh one). -/
def mapSet {β : Type} : List (String × β) → String → β → List (String × β)
  | [], key, v => [(key, v)]
  | (k, w) :: rest, key, v =>
    if key = k then (key, v) :: rest else (k, w) :: mapSet rest key v

/-- The key set of a modelled Go map. -/
def mapKeys {β : Type} (m : List (String × β)) : List String := m.map Prod.fst

/-- The configuration-derived fields of Go struct `CustomMetrics`, plus the
(initially empty) metrics store created by `New`.  The transport fields
(`next`, `server`, the stop channels) carry no metric semantics and are
omitted. -/
structure CustomMetricsPlugin where
  metricHeaders : List String
  metricName : String
  metricType : String
  metricsPort : Int
  store : Store
deriving DecidableEq

/-- Go `New` restricted to its pure part: the configuration check
(`len(config.MetricHeaders) == 0` fails construction) and the construction of
the plugin value with an empty store.  The subsequent `startMetricsServer`
call is I/O (port binding) and outside the embedding. -/
def New (config : Config) : Except String CustomMetricsPlugin :=
  if config.MetricHeaders.length = 0 then
    Except.error "metricHeaders cannot be empty"
  else
    Except.ok
      { metricHeaders := config.MetricHeaders
        metricName := config.MetricName
        metricType := config.MetricType
        metricsPort := config.MetricsPort
        store := [] }

/-- Decimal digit run to a natural number. -/
def digitsToNat (cs : List Char) : Nat :=
  cs.foldl (fun n c => 10 * n + (c.toNat - 48)) 0

/-- Model of the Go standard library's `strconv.ParseFloat(s, 64)` (library
code, not part of src/), restricted to plain decimal literals
`[+-]?digits[.digits]?`: exponent, hex, `Inf`/`NaN` and underscore forms are
not modelled.  No claim depends on those forms; the concrete header values
appearing in the spec's scenarios are plain decimal.  Parsed values are exact
rationals. -/
def parseFloat? (s : String) : Option ℚ :=
  match s.toList with
  | [] => none
  | c :: cs =>
    let sign : ℚ := if c = '-' then -1 else 1
    let body : List Char := if c = '-' ∨ c = '+' then cs else c :: cs
    let intPart := body.takeWhile Char.isDigit
    let rest := body.dropWhile Char.isDigit
    match rest with
    | [] =>
      if intPart.isEmpty then none
      else some (sign * (digitsToNat intPart : ℚ))
    | '.' :: fracPart =>
      if fracPart.all Char.isDigit ∧ ¬(intPart.isEmpty ∧ fracPart.isEmpty) then
        some (sign * ((digitsToNat intPart : ℚ) +
          (digitsToNat fracPart : ℚ) / (10 : ℚ) ^ fracPart.length))
      else none
    | _ => none

/-- The label-resolution step of `collectMetrics`: request headers first, then
response headers, else the empty string. -/
def resolveHeaderValue (r p : HeaderMap) (h : String) : String :=
  if r h ≠ "" then r h else if p h ≠ "" then p h else ""

/-- The label-building loop of `collectMetrics`: for each configured header
name (in configured order) assign its resolved value into the `labels` map. -/
def collectLabels (metricHeaders : List String) (r p : HeaderMap) : LabelMap :=
  metricHeaders.foldl (fun labels h => mapSet labels h (resolveHeaderValue r p h)) []

/-- Go `createMetricKey`: starting from the metric name, append
`"_" + k + "_" + v` for each entry of the labels map *in the order Go happens
to iterate the map*; that iteration sequence is the `labelsIter` argument
(a run of the program corresponds to some permutation of the map's
entries). -/
def createMetricKey (metricName : String) (labelsIter : LabelMap) : String :=
  labelsIter.foldl (fun key q => key ++ "_" ++ q.1 ++ "_" ++ q.2) metricName

/-- One scanning pass of Go `getNumericValueFromHeaders` over one header
source: first configured header that is present (`Get ≠ ""`) and parses,
in configured order. -/
def scanNumeric (metricHeaders : List String) (get : HeaderMap) : Option ℚ :=
  match metricHeaders with
  | [] => none
  | h :: rest =>
    if get h ≠ "" then
      match parseFloat? (get h) with
      | some v => some v
      | none => scanNumeric rest get
    else scanNumeric rest get

/-- Go `getNumericValueFromHeaders`: request pass, then response pass, else
the default value `1`. -/
def getNumericValueFromHeaders (metricHeaders : List String) (r p : HeaderMap) : ℚ :=
  match scanNumeric metricHeaders r with
  | some v => v
  | none =>
    match scanNumeric metricHeaders p with
    | some v => v
    | none => 1

/-- The series key computed by `collectMetrics`: `c.metricName`, replaced by
`createMetricKey` when the labels map is non-empty. -/
def metricKeyOf (metricHeaders : List String) (metricName : String)
    (r p : HeaderMap) (labelsIter : LabelMap) : String :=
  if 0 < (collectLabels metricHeaders r p).length then
    createMetricKey metricName labelsIter
  else metricName

/-- The `switch c.metricType` at the end of `collectMetrics`: `counter`
increments the value, `histogram` and `gauge` set it to
`getNumericValueFromHeaders`, any other kind matches no case and leaves the
metric untouched. -/
def updateMetricValue (metricHeaders : List String) (metricType : String)
    (r p : HeaderMap) (m : Metric) : Metric :=
  if metricType = MetricTypeCounter then
    { m with Value := m.Value + 1 }
  else if metricType = MetricTypeHistogram ∨ metricType = MetricTypeGauge then
    { m with Value := getNumericValueFromHeaders metricHeaders r p }
  else m

/-- Go `collectMetrics` as a state transformer on the store (the lock
acquisition makes the whole body one atomic step; `labelsIter` is the
iteration sequence Go uses over the freshly built labels map inside
`createMetricKey`).  Builds the labels, derives the key, gets-or-creates the
`Metric`, then applies the kind-specific update. -/
def collectMetrics (metricHeaders : List String) (metricName metricType : String)
    (r p : HeaderMap) (labelsIter : LabelMap) (st : Store) : Store :=
  let labels := collectLabels metricHeaders r p
  let key := metricKeyOf metricHeaders metricName r p labelsIter
  let metric :=
    match mapGet st key with
    | some m => m
    | none => { Name := metricName, Type' := metricType, Value := 0, Labels := labels }
  mapSet st key (updateMetricValue metricHeaders metricType r p metric)

/-- One observed exchange: the request headers, the response headers, and the
labels-map iteration sequence Go happens to use in `createMetricKey` during
that call. -/
structure Exchange where
  reqGet : HeaderMap
  respGet : HeaderMap
  labelsIter : LabelMap

/-- A sequence of `ServeHTTP` calls, i.e. of `collectMetrics` steps. -/
def observeAll (metricHeaders : List String) (metricName metricType : String)
    (es : List Exchange) (st : Store) : Store :=
  es.foldl
    (fun s e => collectMetrics metricHeaders metricName metricType e.reqGet e.respGet e.labelsIter s)
    st

/-- Floor of a rational (denominators are positive, so Euclidean division of
numerator by denominator is the floor). -/
def ratFloor (q : ℚ) : ℤ := Int.ediv q.num (q.den : ℤ)

/-- Model of Go `fmt.Sprintf("%.0f", v)`: round to nearest integer, ties to
even, rendered in decimal. -/
def formatDotZero (q : ℚ) : String :=
  let n : ℤ := ratFloor q
  let r : ℚ := q - (n : ℚ)
  let rounded : ℤ :=
    if r < 1 / 2 then n
    else if 1 / 2 < r then n + 1
    else if n % 2 = 0 then n else n + 1
  toString rounded

/-- The label-pair formatting of `renderPrometheusFormat`:
`k="v"` joined by commas, in the order Go iterates `metric.Labels`
(the `labelsIter` argument). -/
def labelPairsString (labelsIter : LabelMap) : String :=
  String.intercalate "," (labelsIter.map (fun q => q.1 ++ "=\"" ++ q.2 ++ "\""))

/-- One data line of `renderPrometheusFormat`: the metric name, the
`{...}` label block when the labels map is non-empty, a space, the value
under `%.0f`, and a newline. -/
def renderMetricLine (m : Metric) (labelsIter : LabelMap) : String :=
  let metricLine :=
    if 0 < m.Labels.length then
      m.Name ++ "\x7b" ++ labelPairsString labelsIter ++ "\x7d"
    else m.Name
  metricLine ++ " " ++ formatDotZero m.Value ++ "\n"

/-- One iteration of the store loop of `renderPrometheusFormat`: the
accumulator is `(output, helpAdded)`; the `# HELP`/`# TYPE` pair is emitted
only while `helpAdded` is still false. -/
def renderStep (acc : String × Bool) (entry : Metric × LabelMap) : String × Bool :=
  let output := acc.1
  let helpAdded := acc.2
  let output :=
    if ¬helpAdded then
      output ++ "# HELP " ++ entry.1.Name ++ " Custom metric based on HTTP headers\n" ++
        "# TYPE " ++ entry.1.Name ++ " " ++ entry.1.Type' ++ "\n"
    else output
  let helpAdded := if ¬helpAdded then true else helpAdded
  (output ++ renderMetricLine entry.1 entry.2, helpAdded)

/-- Go `renderPrometheusFormat`: fold over the store's metrics in the order Go
iterates the store map (`storeIter`), each paired with the iteration sequence
used over its labels map. -/
def renderPrometheusFormat (storeIter : List (Metric × LabelMap)) : String :=
  (storeIter.foldl renderStep ("", false)).1

/-- Split a character sequence into lines at `'\n'` (used to state properties
of the rendered exposition text). -/
def splitLines : List Char → List (List Char)
  | [] => [[]]
  | c :: rest =>
    if c = '\n' then [] :: splitLines rest
    else
      match splitLines rest with
      | [] => [[c]]
      | l :: ls => (c :: l) :: ls

/-- Number of lines of `s` that start with `pre`. -/
def countLinesStartingWith (s pre : String) : Nat :=
  (splitLines s.toList).countP (fun l => l.take pre.toList.length = pre.toList)

/-- Spec-shaped definition (for the refinement claim C3), transcribing the
spec's words: "the first numeric value found by scanning configured headers in
order", one header source at a time. -/
def specFirstParsedValue (metricHeaders : List String) (get : HeaderMap) : Option ℚ :=
  ((metricHeaders.map get).filterMap parseFloat?).head?

/-- Spec-shaped definition (for the refinement claim C3): request pass first,
then response pass, sentinel `1` when neither yields a numeric value. -/
def specGaugeValue (metricHeaders : List String) (r p : HeaderMap) : ℚ :=
  match specFirstParsedValue metricHeaders r with
  | some v => v
  | none =>
    match specFirstParsedValue metricHeaders p with
    | some v => v
    | none => 1

/-- The per-`Metric` part of the store invariant of claim C9. -/
def MetricInv (metricHeaders : List String) (metricName metricType : String)
    (m : Metric) : Prop :=
  m.Name = metricName ∧ m.Type' = metricType ∧
    (∀ h ∈ mapKeys m.Labels, h ∈ metricHeaders) ∧
    (∀ h ∈ metricHeaders, h ∈ mapKeys m.Labels)

/-- The store invariant of claim C9: every stored metric carries the
configured name and kind and a labels map whose key set is exactly the
configured header set. -/
def StoreInv (metricHeaders : List String) (metricName metricType : String)
    (st : Store) : Prop :=
  ∀ q ∈ st, MetricInv metricHeaders metricName metricType q.2

/-- A request header collection with `a: 1` and `b: 2` (used in concrete
executions). -/
def reqAB : HeaderMap := fun h => if h = "a" then "1" else if h = "b" then "2" else ""

/-- An empty header collection (every `Get` returns `""`). -/
def noHeaders : HeaderMap := fun _ => ""

/-! ### Association-list (Go map) lemmas -/

theorem mapGet_mapSet_self {β : Type} (m : List (String × β)) (k : String) (v : β) :
    mapGet (mapSet m k v) k = some v := by
  induction m with
  | nil => simp [mapGet, mapSet]
  | cons q rest ih =>
    by_cases h : k = q.1
    · simp [mapSet, h, mapGet]
    · simp [mapSet, h, mapGet, ih]

theorem mapGet_mapSet_ne {β : Type} (m : List (String × β)) (k k' : String) (v : β)
    (h : k' ≠ k) : mapGet (mapSet m k v) k' = mapGet m k' := by
  induction m with
  | nil => simp [mapGet, mapSet, h]
  | cons q rest ih =>
    by_cases hk : k = q.1
    · subst hk
      simp [mapSet, mapGet, h]
    · by_cases hk' : k' = q.1
      · simp [mapSet, hk, mapGet, hk']
      · simp [mapSet, hk, mapGet, hk', ih]

theorem mem_mapSet {β : Type} (m : List (String × β)) (k : String) (v : β)
    (q : String × β) (hq : q ∈ mapSet m k v) : q = (k, v) ∨ q ∈ m := by
  induction m with
  | nil =>
    simp [mapSet] at hq
    exact Or.inl hq
  | cons p rest ih =>
    by_cases hk : k = p.1
    · simp [mapSet, hk] at hq
      rcases hq with h | h
      · exact Or.inl (by simp [h, hk])
      · exact Or.inr (List.mem_cons_of_mem _ h)
    · simp [mapSet, hk] at hq
      rcases hq with h | h
      · exact Or.inr (by simp [h])
      · rcases ih h with h' | h'
        · exact Or.inl h'
        · exact Or.inr (List.mem_cons_of_mem _ h')

theorem mem_mapKeys_mapSet {β : Type} (m : List (String × β)) (k : String) (v : β)
    (a : String) : a ∈ mapKeys (mapSet m k v) ↔ a = k ∨ a ∈ mapKeys m := by
  induction m with
  | nil => simp [mapSet, mapKeys]
  | cons p rest ih =>
    by_cases hk : k = p.1
    · subst hk
      simp [mapSet, mapKeys]
    · simp [mapSet, hk, mapKeys] at ih ⊢
      tauto

theorem mapGet_mem {β : Type} (m : List (String × β)) (k : String) (v : β)
    (h : mapGet m k = some v) : (k, v) ∈ m := by
  induction m with
  | nil => simp [mapGet] at h
  | cons p rest ih =>
    by_cases hk : k = p.1
    · simp [mapGet, hk] at h
      subst hk
      simp [← h]
    · simp [mapGet, hk] at h
      exact List.mem_cons_of_mem _ (ih h)

/-! ### `collectLabels` lemmas -/

theorem mapGet_collectLabels_loop (r p : HeaderMap) (metricHeaders : List String)
    (acc : LabelMap) (h : String) :
    mapGet (metricHeaders.foldl (fun labels x => mapSet labels x (resolveHeaderValue r p x)) acc) h =
      if h ∈ metricHeaders then some (resolveHeaderValue r p h) else mapGet acc h := by
  induction metricHeaders generalizing acc with
  | nil => simp
  | cons hd tl ih =>
    by_cases hmem : h ∈ tl
    · simp [List.foldl_cons, ih, hmem]
    · by_cases hh : h = hd
      · subst hh
        simp [List.foldl_cons, ih, hmem, mapGet_mapSet_self]
      · simp [List.foldl_cons, ih, hmem, hh, mapGet_mapSet_ne _ _ _ _ hh]

theorem mapGet_collectLabels (metricHeaders : List String) (r p : HeaderMap)
    (h : String) (hmem : h ∈ metricHeaders) :
    mapGet (collectLabels metricHeaders r p) h = some (resolveHeaderValue r p h) := by
  rw [collectLabels, mapGet_collectLabels_loop, if_pos hmem]

theorem mem_mapKeys_collectLabels_loop (r p : HeaderMap) (metricHeaders : List String)
    (acc : LabelMap) (a : String) :
    a ∈ mapKeys (metricHeaders.foldl (fun labels x => mapSet labels x (resolveHeaderValue r p x)) acc) ↔
      a ∈ mapKeys acc ∨ a ∈ metricHeaders := by
  induction metricHeaders generalizing acc with
  | nil => simp
  | cons hd tl ih =>
    simp [List.foldl_cons, ih, mem_mapKeys_mapSet]
    tauto

theorem mem_mapKeys_collectLabels (metricHeaders : List String) (r p : HeaderMap)
    (a : String) :
    a ∈ mapKeys (collectLabels metricHeaders r p) ↔ a ∈ metricHeaders := by
  rw [collectLabels, mem_mapKeys_collectLabels_loop]
  simp [mapKeys]

/-! ### Numeric-scan lemmas -/

theorem parseFloat_empty : parseFloat? "" = none := rfl

theorem scanNumeric_none (metricHeaders : List String) (get : HeaderMap)
    (h : ∀ x ∈ metricHeaders, get x = "") : scanNumeric metricHeaders get = none := by
  induction metricHeaders with
  | nil => rfl
  | cons hd tl ih =>
    have hhd : get hd = "" := h hd (by simp)
    simp only [scanNumeric, hhd]
    simp [ih fun x hx => h x (List.mem_cons_of_mem _ hx)]

theorem getNumericValueFromHeaders_default (metricHeaders : List String) (r p : HeaderMap)
    (hr : ∀ x ∈ metricHeaders, r x = "") (hp : ∀ x ∈ metricHeaders, p x = "") :
    getNumericValueFromHeaders metricHeaders r p = 1 := by
  unfold getNumericValueFromHeaders
  rw [scanNumeric_none _ _ hr, scanNumeric_none _ _ hp]

theorem specFirstParsedValue_cons (h : String) (t : List String) (get : HeaderMap) :
    specFirstParsedValue (h :: t) get =
      match parseFloat? (get h) with
      | some v => some v
      | none => specFirstParsedValue t get := by
  simp only [specFirstParsedValue, List.map_cons, List.filterMap_cons]
  cases parseFloat? (get h) <;> simp

theorem scanNumeric_eq_specFirstParsedValue (metricHeaders : List String) (get : HeaderMap) :
    scanNumeric metricHeaders get = specFirstParsedValue metricHeaders get := by
  induction metricHeaders with
  | nil => rfl
  | cons hd tl ih =>
    rw [specFirstParsedValue_cons]
    by_cases hhd : get hd = ""
    · simp only [scanNumeric, hhd, parseFloat_empty]
      simp [ih]
    · simp only [scanNumeric, if_pos hhd]
      cases hp : parseFloat? (get hd) <;> simp [hp, ih]

theorem getNumericValueFromHeaders_eq_specGaugeValue (metricHeaders : List String)
    (r p : HeaderMap) :
    getNumericValueFromHeaders metricHeaders r p = specGaugeValue metricHeaders r p := by
  unfold getNumericValueFromHeaders specGaugeValue
  rw [scanNumeric_eq_specFirstParsedValue, scanNumeric_eq_specFirstParsedValue]

/-! ### `updateMetricValue` and `collectMetrics` step lemmas -/

theorem updateMetricValue_Name (metricHeaders : List String) (metricType : String)
    (r p : HeaderMap) (m : Metric) :
    (updateMetricValue metricHeaders metricType r p m).Name = m.Name := by
  unfold updateMetricValue
  by_cases h1 : metricType = MetricTypeCounter
  · simp [h1]
  · by_cases h2 : metricType = MetricTypeHistogram ∨ metricType = MetricTypeGauge
    · simp [h1, h2]
    · simp [h1, h2]

theorem updateMetricValue_Type (metricHeaders : List String) (metricType : String)
    (r p : HeaderMap) (m : Metric) :
    (updateMetricValue metricHeaders metricType r p m).Type' = m.Type' := by
  unfold updateMetricValue
  by_cases h1 : metricType = MetricTypeCounter
  · simp [h1]
  · by_cases h2 : metricType = MetricTypeHistogram ∨ metricType = MetricTypeGauge
    · simp [h1, h2]
    · simp [h1, h2]

theorem updateMetricValue_Labels (metricHeaders : List String) (metricType : String)
    (r p : HeaderMap) (m : Metric) :
    (updateMetricValue metricHeaders metricType r p m).Labels = m.Labels := by
  unfold updateMetricValue
  by_cases h1 : metricType = MetricTypeCounter
  · simp [h1]
  · by_cases h2 : metricType = MetricTypeHistogram ∨ metricType = MetricTypeGauge
    · simp [h1, h2]
    · simp [h1, h2]

theorem counter_step (metricHeaders : List String) (metricName : String)
    (r p : HeaderMap) (it : LabelMap) (st : Store) :
    (mapGet (collectMetrics metricHeaders metricName MetricTypeCounter r p it st)
        (metricKeyOf metricHeaders metricName r p it)).map Metric.Value =
      some ((((mapGet st (metricKeyOf metricHeaders metricName r p it)).map
        Metric.Value).getD 0) + 1) := by
  unfold collectMetrics updateMetricValue
  cases hm : mapGet st (metricKeyOf metricHeaders metricName r p it) <;>
    simp [hm, mapGet_mapSet_self]

theorem gauge_step (metricHeaders : List String) (metricName metricType : String)
    (r p : HeaderMap) (it : LabelMap) (st : Store)
    (ht : metricType = MetricTypeGauge ∨ metricType = MetricTypeHistogram) :
    (mapGet (collectMetrics metricHeaders metricName metricType r p it st)
        (metricKeyOf metricHeaders metricName r p it)).map Metric.Value =
      some (getNumericValueFromHeaders metricHeaders r p) := by
  have hne : metricType ≠ MetricTypeCounter := by
    rcases ht with h | h <;> subst h <;> decide
  have hgh : metricType = MetricTypeHistogram ∨ metricType = MetricTypeGauge := ht.symm
  unfold collectMetrics updateMetricValue
  cases hm : mapGet st (metricKeyOf metricHeaders metricName r p it) <;>
    simp [hm, hne, hgh, mapGet_mapSet_self]

theorem collectMetrics_nil_singleton (metricHeaders : List String)
    (metricName metricType : String) (r p : HeaderMap) (it : LabelMap) :
    ∃ v : ℚ, collectMetrics metricHeaders metricName metricType r p it [] =
      [(metricKeyOf metricHeaders metricName r p it,
        { Name := metricName, Type' := metricType, Value := v,
          Labels := collectLabels metricHeaders r p })] := by
  unfold collectMetrics updateMetricValue
  by_cases h1 : metricType = MetricTypeCounter
  · exact ⟨0 + 1, by simp [mapGet, mapSet, h1]⟩
  · by_cases h2 : metricType = MetricTypeHistogram ∨ metricType = MetricTypeGauge
    · exact ⟨getNumericValueFromHeaders metricHeaders r p, by simp [mapGet, mapSet, h1, h2]⟩
    · exact ⟨0, by simp [mapGet, mapSet, h1, h2]⟩

theorem counter_run (metricHeaders : List String) (metricName k : String)
    (es : List Exchange) :
    ∀ st : Store,
      (∀ e ∈ es, metricKeyOf metricHeaders metricName e.reqGet e.respGet e.labelsIter = k) →
      es ≠ [] →
      (mapGet (observeAll metricHeaders metricName MetricTypeCounter es st) k).map
          Metric.Value =
        some ((((mapGet st k).map Metric.Value).getD 0) + es.length) := by
  induction es with
  | nil => exact fun st _ hne => absurd rfl hne
  | cons e tl ih =>
    intro st hk _
    have hke : metricKeyOf metricHeaders metricName e.reqGet e.respGet e.labelsIter = k :=
      hk e (by simp)
    have hstep := counter_step metricHeaders metricName e.reqGet e.respGet e.labelsIter st
    rw [hke] at hstep
    by_cases htl : tl = []
    · subst htl
      simp only [observeAll, List.foldl_cons, List.foldl_nil] at hstep ⊢
      rw [hstep]
      norm_num
    · have htlk : ∀ e' ∈ tl,
          metricKeyOf metricHeaders metricName e'.reqGet e'.respGet e'.labelsIter = k :=
        fun e' he' => hk e' (List.mem_cons_of_mem _ he')
      have ihc := ih (collectMetrics metricHeaders metricName MetricTypeCounter
        e.reqGet e.respGet e.labelsIter st) htlk htl
      simp only [observeAll, List.foldl_cons] at ihc ⊢
      rw [ihc, hstep]
      simp only [Option.getD_some, List.length_cons]
      congr 1
      push_cast
      ring

/-! ### Retyping lemmas (claim C8) -/

/-- Replace the recorded kind of every stored metric. -/
def retypeStore (t : String) (st : Store) : Store :=
  st.map (fun q => (q.1, { q.2 with Type' := t }))

theorem mapGet_retypeStore (t : String) (st : Store) (k : String) :
    mapGet (retypeStore t st) k = (mapGet st k).map (fun m => { m with Type' := t }) := by
  induction st with
  | nil => rfl
  | cons q rest ih =>
    by_cases hk : k = q.1
    · simp [retypeStore, mapGet, hk]
    · simp only [retypeStore, List.map_cons, mapGet, hk, if_neg hk]
      exact ih

theorem mapSet_retypeStore (t : String) (st : Store) (k : String) (m : Metric) :
    mapSet (retypeStore t st) k { m with Type' := t } = retypeStore t (mapSet st k m) := by
  induction st with
  | nil => rfl
  | cons q rest ih =>
    by_cases hk : k = q.1
    · simp [retypeStore, mapSet, hk]
    · simp [retypeStore, mapSet, hk] at ih ⊢
      exact ih

theorem collect_hist_gauge_commute (metricHeaders : List String) (metricName : String)
    (r p : HeaderMap) (it : LabelMap) (st : Store) :
    collectMetrics metricHeaders metricName MetricTypeHistogram r p it
        (retypeStore MetricTypeHistogram st) =
      retypeStore MetricTypeHistogram
        (collectMetrics metricHeaders metricName MetricTypeGauge r p it st) := by
  have hh1 : ¬(MetricTypeHistogram = MetricTypeCounter) := by decide
  have hg1 : ¬(MetricTypeGauge = MetricTypeCounter) := by decide
  simp only [collectMetrics, updateMetricValue, mapGet_retypeStore]
  cases hm : mapGet st (metricKeyOf metricHeaders metricName r p it) <;>
    simp [hm, hh1, hg1, ← mapSet_retypeStore]

theorem observeAll_hist_retype (metricHeaders : List String) (metricName : String)
    (es : List Exchange) :
    ∀ st : Store,
      observeAll metricHeaders metricName MetricTypeHistogram es
          (retypeStore MetricTypeHistogram st) =
        retypeStore MetricTypeHistogram
          (observeAll metricHeaders metricName MetricTypeGauge es st) := by
  induction es with
  | nil => exact fun _ => rfl
  | cons e tl ih =>
    intro st
    simp only [observeAll, List.foldl_cons] at ih ⊢
    rw [collect_hist_gauge_commute]
    exact ih _

/-! ### Concrete inputs used in counterexamples and witnesses -/

/-- The exchange of the spec's counter scenario: request header
`X-User-ID: user123`, empty response headers, the (unique) singleton
iteration order of its labels map. -/
def exUser123 : Exchange :=
  ⟨fun h => if h = "X-User-ID" then "user123" else "", noHeaders,
    [("X-User-ID", "user123")]⟩

/-- The request of the spec's gauge scenario: `X-Size: 1024`. -/
def reqXSize : HeaderMap := fun h => if h = "X-Size" then "1024" else ""

/-- A configuration whose metric kind is not one of `counter`, `gauge`,
`histogram`. -/
def cfgBogusKind : Config := ⟨["X-User-ID"], "m", "bogus", 8081⟩

/-- A metric stored under a key unrelated to the observed exchange (used in
the frame-property witness). -/
def mz : Metric := ⟨"z", "counter", 5, []⟩

/-! ### Claim theorems -/

/-- Claim C1 (refuted; code bug): the claim says key derivation from
`(N, L)` is deterministic and always equals `N` followed by
`_<headerName>_<headerValue>` in *configured* header order.  In the source,
`createMetricKey` ranges over the Go map `labels`, whose iteration order is
unspecified and randomized; this theorem shows that for the metric name `m`
and the labels map built from configured headers `[a, b]` with request
headers `a: 1, b: 2`, both `[("a","1"),("b","2")]` and its permutation
`[("b","2"),("a","1")]` are possible iteration sequences of that map, and
they produce the distinct keys `m_a_1_b_2` and `m_b_2_a_1` — only the first
of which is the configured-order key the claim requires. -/
theorem createMetricKey_depends_on_iteration_order :
    collectLabels ["a", "b"] reqAB noHeaders = [("a", "1"), ("b", "2")] ∧
    List.Perm [("b", "2"), ("a", "1")] (collectLabels ["a", "b"] reqAB noHeaders) ∧
    createMetricKey "m" [("a", "1"), ("b", "2")] = "m_a_1_b_2" ∧
    createMetricKey "m" [("b", "2"), ("a", "1")] = "m_b_2_a_1" ∧
    "m_a_1_b_2" ≠ "m_b_2_a_1" :=
  ⟨by decide, by decide, by decide, by decide, by decide⟩

unseal Rat.mul Rat.add Rat.sub Rat.inv in
/-- Claim C2 counterexample: two counter observations of the *same* exchange
(hence the same label combination `[("a","1"),("b","2")]`) can use different
iteration orders of the labels map in `createMetricKey` and therefore land on
two different series keys: the store then holds two series, both with that
one label combination, each with value 1 — no series has value 2, refuting
"after N observations that resolve to one label combination, that series's
value equals exactly N" at N = 2. -/
theorem counter_same_labels_may_split_series :
    List.Perm [("b", "2"), ("a", "1")] (collectLabels ["a", "b"] reqAB noHeaders) ∧
    (collectMetrics ["a", "b"] "m" MetricTypeCounter reqAB noHeaders
        [("b", "2"), ("a", "1")]
        (collectMetrics ["a", "b"] "m" MetricTypeCounter reqAB noHeaders
          [("a", "1"), ("b", "2")] [])).length = 2 ∧
    (∀ q ∈ collectMetrics ["a", "b"] "m" MetricTypeCounter reqAB noHeaders
        [("b", "2"), ("a", "1")]
        (collectMetrics ["a", "b"] "m" MetricTypeCounter reqAB noHeaders
          [("a", "1"), ("b", "2")] []),
      q.2.Labels = [("a", "1"), ("b", "2")] ∧ q.2.Value = 1 ∧ q.2.Value ≠ 2) := by
  refine ⟨by decide, by decide, by decide⟩

/-- Claim C2 (amended): for a counter-kind definition, `collectMetrics`
increments the derived series's value by exactly 1 on every observed
exchange, unconditionally — no hypothesis on any header being present — so
after N observations *that derive the same series key* (which, because of
the map-iteration bug refuted in the counterexample, is the correct
strengthening of "that resolve to one label combination"), that series's
value equals exactly N. -/
theorem counter_value_eq_num_observations (metricHeaders : List String)
    (metricName k : String) (es : List Exchange) (hne : es ≠ [])
    (hk : ∀ e ∈ es, metricKeyOf metricHeaders metricName e.reqGet e.respGet e.labelsIter = k) :
    (mapGet (observeAll metricHeaders metricName MetricTypeCounter es []) k).map
        Metric.Value = some (es.length : ℚ) := by
  have h := counter_run metricHeaders metricName k es [] hk hne
  simpa [mapGet] using h

unseal Rat.mul Rat.add Rat.sub Rat.inv in
/-- Witness for claim C2's amended theorem, at the spec's counter scenario:
after observing `X-User-ID: user123` twice, the series
`c_X-User-ID_user123` has value exactly 2. -/
theorem counter_value_eq_num_observations_witness :
    (mapGet (observeAll ["X-User-ID"] "c" MetricTypeCounter [exUser123, exUser123] [])
        "c_X-User-ID_user123").map Metric.Value = some 2 := by
  have h := counter_value_eq_num_observations ["X-User-ID"] "c" "c_X-User-ID_user123"
    [exUser123, exUser123] (by simp) (by decide)
  simpa using h

/-- Claim C3 (confirmed): for a gauge-kind (and histogram-kind) definition,
`collectMetrics` sets the derived series's value to the first header value
that parses as a float, scanning the configured headers in configured order,
request headers first and then response headers (`specGaugeValue` transcribes
that description from the spec), with sentinel 1 when nothing parses. -/
theorem gauge_sets_value_to_first_parsed_header (metricHeaders : List String)
    (metricName metricType : String) (r p : HeaderMap) (it : LabelMap) (st : Store)
    (ht : metricType = MetricTypeGauge ∨ metricType = MetricTypeHistogram) :
    (mapGet (collectMetrics metricHeaders metricName metricType r p it st)
        (metricKeyOf metricHeaders metricName r p it)).map Metric.Value =
      some (specGaugeValue metricHeaders r p) := by
  rw [gauge_step metricHeaders metricName metricType r p it st ht,
    getNumericValueFromHeaders_eq_specGaugeValue]

unseal Rat.mul Rat.add Rat.sub Rat.inv in
/-- Witness for claim C3, at the spec's gauge scenario: observing with
`X-Size: 1024` yields a series whose value is 1024. -/
theorem gauge_sets_value_to_first_parsed_header_witness :
    (mapGet (collectMetrics ["X-Size"] "g" MetricTypeGauge reqXSize noHeaders
        [("X-Size", "1024")] [])
        (metricKeyOf ["X-Size"] "g" reqXSize noHeaders [("X-Size", "1024")])).map
      Metric.Value = some 1024 := by
  have h := gauge_sets_value_to_first_parsed_header ["X-Size"] "g" MetricTypeGauge
    reqXSize noHeaders [("X-Size", "1024")] [] (Or.inl rfl)
  rw [h]
  decide

unseal Rat.mul Rat.add Rat.sub Rat.inv in
/-- Claim C4 (refuted; code bug): the claim says the rendered text contains
exactly one `# HELP` and one `# TYPE` line *per distinct metric name present
in the store* and that the renderer must not assume the store holds only one
metric name.  The source's `renderPrometheusFormat` guards the HELP/TYPE pair
with a single `helpAdded` flag for the whole loop (despite its own comment
"Add HELP and TYPE comments only once per metric name"), so for a store
holding two metrics with distinct names `a` and `b` it emits exactly one
`# HELP` and one `# TYPE` line in total — for the first metric enumerated
only — instead of one per distinct name.  (The data lines and the omission of
the `{...}` block for empty label sets are visible in the computed output.) -/
theorem render_emits_help_only_for_first_metric :
    renderPrometheusFormat
        [(⟨"a", "counter", 1, []⟩, []), (⟨"b", "counter", 1, []⟩, [])] =
      "# HELP a Custom metric based on HTTP headers\n# TYPE a counter\na 1\nb 1\n" ∧
    countLinesStartingWith
      (renderPrometheusFormat
        [(⟨"a", "counter", 1, []⟩, []), (⟨"b", "counter", 1, []⟩, [])]) "# HELP " = 1 ∧
    countLinesStartingWith
      (renderPrometheusFormat
        [(⟨"a", "counter", 1, []⟩, []), (⟨"b", "counter", 1, []⟩, [])]) "# TYPE " = 1 ∧
    ((([(⟨"a", "counter", 1, []⟩, []), (⟨"b", "counter", 1, []⟩, [])] :
        List (Metric × LabelMap)).map
        (fun q => q.1.Name)).dedup.length = 2) := by
  refine ⟨by decide, by decide, by decide, by decide⟩

unseal Rat.mul Rat.add Rat.sub Rat.inv in
/-- Claim C5 (refuted; code bug): the claim says labels within a data line
are emitted in the configured header order, so rendering the same store state
twice produces identical output.  The source ranges over the Go map
`metric.Labels`, whose iteration order is arbitrary: for one and the same
stored series with labels `[("a","1"),("b","2")]`, the two possible
iteration sequences (both permutations of the map's entries) produce
different rendered text, so two renders of the same store state can
differ. -/
theorem render_label_order_depends_on_iteration :
    List.Perm [("b", "2"), ("a", "1")]
      (Metric.Labels ⟨"m", "gauge", 2, [("a", "1"), ("b", "2")]⟩) ∧
    renderPrometheusFormat
        [(⟨"m", "gauge", 2, [("a", "1"), ("b", "2")]⟩, [("a", "1"), ("b", "2")])] ≠
      renderPrometheusFormat
        [(⟨"m", "gauge", 2, [("a", "1"), ("b", "2")]⟩, [("b", "2"), ("a", "1")])] := by
  refine ⟨by decide, by decide⟩

/-- Claim C6 counterexample: the claim says construction fails when the
configured metric kind is not one of `counter`, `gauge`, `histogram`; but
`New` only validates the header list, so a configuration with kind `bogus`
(and a non-empty header list) constructs successfully. -/
theorem new_accepts_unrecognized_metric_kind :
    New cfgBogusKind = Except.ok ⟨["X-User-ID"], "m", "bogus", 8081, []⟩ ∧
    ¬("bogus" = MetricTypeCounter ∨ "bogus" = MetricTypeGauge ∨
      "bogus" = MetricTypeHistogram) :=
  ⟨rfl, by decide⟩

/-- Claim C6 (amended): construction fails for configuration reasons exactly
when the configured header list is empty; the metric kind is not validated at
construction (an unrecognized kind is accepted, its value updates matching no
case of the update switch), and per-request collection is a total function
that reports no failure. -/
theorem new_fails_iff_headers_empty (config : Config) :
    (∃ e, New config = Except.error e) ↔ config.MetricHeaders = [] := by
  constructor
  · rintro ⟨e, he⟩
    by_cases h : config.MetricHeaders.length = 0
    · exact List.length_eq_zero.mp h
    · simp [New, h] at he
  · intro h
    exact ⟨"metricHeaders cannot be empty", by simp [New, h]⟩

/-- Claim C7 (confirmed): an exchange with every configured header absent
from both request and response still produces exactly one series, whose
labels map each configured header name to the empty string (the key is
present in the labels map), and, for gauge/histogram kinds, whose value is
the sentinel 1. -/
theorem observe_missing_headers_single_empty_series (metricHeaders : List String)
    (metricName metricType : String) (r p : HeaderMap) (it : LabelMap)
    (habs : ∀ h ∈ metricHeaders, r h = "" ∧ p h = "") :
    (collectMetrics metricHeaders metricName metricType r p it []).length = 1 ∧
    ∀ q ∈ collectMetrics metricHeaders metricName metricType r p it [],
      (∀ h ∈ metricHeaders, mapGet q.2.Labels h = some "") ∧
      ((metricType = MetricTypeGauge ∨ metricType = MetricTypeHistogram) →
        q.2.Value = 1) := by
  obtain ⟨v, hst⟩ := collectMetrics_nil_singleton metricHeaders metricName metricType r p it
  rw [hst]
  refine ⟨rfl, ?_⟩
  intro q hq
  rw [List.mem_singleton] at hq
  constructor
  · intro h hh
    rw [hq]
    rw [mapGet_collectLabels metricHeaders r p h hh]
    have h1 := (habs h hh).1
    have h2 := (habs h hh).2
    simp [resolveHeaderValue, h1, h2]
  · intro ht
    have hg := gauge_step metricHeaders metricName metricType r p it [] ht
    rw [hst] at hg
    have hv : v = getNumericValueFromHeaders metricHeaders r p := by
      simpa [mapGet] using hg
    rw [hq]
    show v = 1
    rw [hv]
    exact getNumericValueFromHeaders_default metricHeaders r p
      (fun x hx => (habs x hx).1) (fun x hx => (habs x hx).2)

unseal Rat.mul Rat.add Rat.sub Rat.inv in
/-- Witness for claim C7: configured header `X-User-ID`, gauge kind, all
headers absent — one series, label `X-User-ID` present and empty, value 1. -/
theorem observe_missing_headers_single_empty_series_witness :
    (collectMetrics ["X-User-ID"] "c" MetricTypeGauge noHeaders noHeaders
      [("X-User-ID", "")] []).length = 1 ∧
    ∀ q ∈ collectMetrics ["X-User-ID"] "c" MetricTypeGauge noHeaders noHeaders
        [("X-User-ID", "")] [],
      (∀ h ∈ ["X-User-ID"], mapGet q.2.Labels h = some "") ∧
      ((MetricTypeGauge = MetricTypeGauge ∨ MetricTypeGauge = MetricTypeHistogram) →
        q.2.Value = 1) :=
  observe_missing_headers_single_empty_series ["X-User-ID"] "c" MetricTypeGauge
    noHeaders noHeaders [("X-User-ID", "")] (by decide)

/-- Claim C8 (confirmed): the histogram kind's update rule is identical to
the gauge kind's.  For every configuration and every sequence of observed
exchanges (same header sources and same map-iteration sequences), observing
with kind `histogram` produces exactly the store obtained by observing with
kind `gauge` and then replacing every stored metric's recorded kind by
`histogram`: keys, names, label maps and values — the most recent
observation, with no bucketing — all coincide; only the recorded kind
differs. -/
theorem histogram_observe_equals_gauge_observe (metricHeaders : List String)
    (metricName : String) (es : List Exchange) :
    observeAll metricHeaders metricName MetricTypeHistogram es [] =
      retypeStore MetricTypeHistogram
        (observeAll metricHeaders metricName MetricTypeGauge es []) := by
  have h := observeAll_hist_retype metricHeaders metricName es []
  simpa [retypeStore] using h

theorem MetricInv_updateMetricValue (metricHeaders : List String)
    (metricName metricType : String) (r p : HeaderMap) (m : Metric)
    (hm : MetricInv metricHeaders metricName metricType m) :
    MetricInv metricHeaders metricName metricType
      (updateMetricValue metricHeaders metricType r p m) := by
  rcases hm with ⟨h1, h2, h3, h4⟩
  refine ⟨?_, ?_, ?_, ?_⟩
  · rw [updateMetricValue_Name]; exact h1
  · rw [updateMetricValue_Type]; exact h2
  · simp only [updateMetricValue_Labels]; exact h3
  · simp only [updateMetricValue_Labels]; exact h4

/-- Claim C9 (confirmed): every `collectMetrics` call preserves the store
invariant that each stored `Metric` has `Name` equal to the configured metric
name, `Type` equal to the configured metric kind, and a labels map whose key
set is exactly the set of configured header names. -/
theorem collectMetrics_preserves_store_invariant (metricHeaders : List String)
    (metricName metricType : String) (r p : HeaderMap) (it : LabelMap) (st : Store)
    (hst : StoreInv metricHeaders metricName metricType st) :
    StoreInv metricHeaders metricName metricType
      (collectMetrics metricHeaders metricName metricType r p it st) := by
  intro q hq
  simp only [collectMetrics] at hq
  rcases mem_mapSet _ _ _ _ hq with hq' | hq'
  · rw [hq']
    apply MetricInv_updateMetricValue
    cases hm : mapGet st (metricKeyOf metricHeaders metricName r p it) with
    | some m => exact hst _ (mapGet_mem _ _ _ hm)
    | none =>
      exact ⟨rfl, rfl,
        fun h hh => (mem_mapKeys_collectLabels metricHeaders r p h).mp hh,
        fun h hh => (mem_mapKeys_collectLabels metricHeaders r p h).mpr hh⟩
  · exact hst q hq'

/-- Witness for claim C9: the invariant holds of the empty store and is
carried to the store obtained by one observation of the `user123`
exchange. -/
theorem collectMetrics_preserves_store_invariant_witness :
    StoreInv ["X-User-ID"] "c" MetricTypeCounter
      (collectMetrics ["X-User-ID"] "c" MetricTypeCounter exUser123.reqGet
        exUser123.respGet exUser123.labelsIter []) :=
  collectMetrics_preserves_store_invariant ["X-User-ID"] "c" MetricTypeCounter
    exUser123.reqGet exUser123.respGet exUser123.labelsIter []
    (fun q hq => absurd hq (List.not_mem_nil q))

/-- Claim C10 (confirmed): a single `collectMetrics` call modifies at most
the one series whose key it derives for that exchange — every other key maps
to exactly the same `Metric` (value, name, kind and labels unchanged) — and
no series is ever removed: every key present before is present after. -/
theorem collectMetrics_frame (metricHeaders : List String)
    (metricName metricType : String) (r p : HeaderMap) (it : LabelMap) (st : Store) :
    (∀ k, k ≠ metricKeyOf metricHeaders metricName r p it →
      mapGet (collectMetrics metricHeaders metricName metricType r p it st) k =
        mapGet st k) ∧
    (∀ k, (mapGet st k).isSome →
      (mapGet (collectMetrics metricHeaders metricName metricType r p it st) k).isSome) := by
  constructor
  · intro k hk
    simp only [collectMetrics]
    exact mapGet_mapSet_ne _ _ _ _ hk
  · intro k hk
    by_cases hke : k = metricKeyOf metricHeaders metricName r p it
    · subst hke
      simp only [collectMetrics]
      rw [mapGet_mapSet_self]
      rfl
    · simp only [collectMetrics]
      rw [mapGet_mapSet_ne _ _ _ _ hke]
      exact hk

/-- Witness for claim C10: observing the `a: 1, b: 2` exchange leaves the
unrelated series stored under key `zkey` untouched and present. -/
theorem collectMetrics_frame_witness :
    mapGet (collectMetrics ["a", "b"] "m" MetricTypeCounter reqAB noHeaders
        [("a", "1"), ("b", "2")] [("zkey", mz)]) "zkey" =
      mapGet [("zkey", mz)] "zkey" ∧
    (mapGet (collectMetrics ["a", "b"] "m" MetricTypeCounter reqAB noHeaders
        [("a", "1"), ("b", "2")] [("zkey", mz)]) "zkey").isSome :=
  ⟨(collectMetrics_frame ["a", "b"] "m" MetricTypeCounter reqAB noHeaders
      [("a", "1"), ("b", "2")] [("zkey", mz)]).1 "zkey" (by decide),
   (collectMetrics_frame ["a", "b"] "m" MetricTypeCounter reqAB noHeaders
      [("a", "1"), ("b", "2")] [("zkey", mz)]).2 "zkey" (by decide)⟩

end Custommetrics
